import Mathlib

/-!
Shallow embedding of moneyman's transaction ingestion and multi-backend storage
orchestration core:

* `src/bot/storage/index.ts` (the snapshot's current version): `saveResults`,
  `resultsToTransactions`, `filterInsuranceVendorTransactions` and the per-backend
  concurrent save task with its `onProgress` step-timer protocol.
* `src/bot/storage/sheets.ts`: the pure decision core of
  `GoogleSheetsStorage.saveTransactions`.
* `src/bot/storage/InvoiceCreator.ts`: `createInvoicesForTransactions`, which
  mutates the transaction rows it is given in place.

The hash derivation helpers (`src/bot/storage/utils.ts`) and the `Timer` class
(`src/utils/Timer.ts`) are not part of the snapshot; they are modelled from the
spec where noted.  Effects are made explicit: the Telegram notifier becomes an
event trace, timestamps become a logical clock, exceptions become sum types.
-/

namespace Moneyman

/-- Ambient state a function could in principle read (wall clock, randomness).
Passed explicitly so that independence from it is statable. -/
structure Env where
  now : Nat
  rand : Nat
deriving DecidableEq

/-- `TransactionStatuses` of israeli-bank-scrapers: `Completed` / `Pending`. -/
inductive TxStatus where
  | completed
  | pending
deriving DecidableEq

/-- A raw scraped transaction as produced by the scraping collaborator.  The
fields the Hash/Unique-Id Deriver requires (date, amount, description) are
`Option`s so that a malformed record (missing field) is representable. -/
structure RawTxn where
  date : Option String
  amount : Option Int
  description : Option String
  originalAmount : Int
  processedDate : String
  memo : Option String
  status : TxStatus
deriving DecidableEq

/-- The canonical record: the raw transaction's fields (kept whole, as the
`{...tx}` spread does) plus `account`, `companyId`, `hash`, `uniqueId`.
`pdf_link` / `doc_number` are the fields `InvoiceCreator` attaches dynamically;
they are absent (`none`) when the row is created during normalization. -/
structure TransactionRow where
  tx : RawTxn
  account : String
  companyId : String
  hash : String
  uniqueId : String
  pdf_link : Option String := none
  doc_number : Option String := none
deriving DecidableEq

/-- Error raised by the derivers on a malformed raw transaction. -/
structure MalformedTransactionError where
  message : String
deriving DecidableEq

/-- The required raw fields, when all present (spec 4.1: date, amount, description). -/
def requiredFields (tx : RawTxn) : Option (String × Int × String) :=
  match tx.date, tx.amount, tx.description with
  | some d, some a, some s => some (d, a, s)
  | _, _, _ => none

/-- Modelled from the spec: `transactionHash` lives in `src/bot/storage/utils.ts`,
which is missing from the snapshot.  Per spec 4.1 it is a pure, deterministic
function of `(raw transaction fields, companyId, account)` that throws
`MalformedTransactionError` when date, amount or description is absent and never
returns an empty string.  The concrete string format is implementation-defined;
a canonical field concatenation is used here.  The `Env` argument stands for the
ambient state the TypeScript function could have read; the spec requires that it
does not, so the definition ignores it. -/
def transactionHash (env : Env) (tx : RawTxn) (companyId account : String) :
    Except MalformedTransactionError String :=
  match requiredFields tx with
  | some (d, a, s) =>
      .ok (d ++ "_" ++ toString a ++ "_" ++ s ++ "_" ++ companyId ++ "_" ++ account)
  | none => .error ⟨"required transaction fields are missing"⟩

/-- Modelled from the spec: `transactionUniqueId` (also in the missing
`src/bot/storage/utils.ts`), the newer dedup key.  Same purity contract as
`transactionHash`; a distinct concrete format. -/
def transactionUniqueId (env : Env) (tx : RawTxn) (companyId account : String) :
    Except MalformedTransactionError String :=
  match requiredFields tx with
  | some (d, a, s) =>
      .ok ("moneyman|" ++ companyId ++ "|" ++ account ++ "|" ++ d ++ "|" ++ toString a ++ "|" ++ s)
  | none => .error ⟨"required transaction fields are missing"⟩

/-- One scraped account: `accountNumber` plus its transaction batch. -/
structure ScrapedAccount where
  accountNumber : String
  txns : List RawTxn
deriving DecidableEq

/-- The scraper's per-credential result: success discriminant and, on success,
the account batches (`accounts` may be absent, hence `Option`: the source reads
`result.accounts ?? []`). -/
structure ScrapeResult where
  success : Bool
  accounts : Option (List ScrapedAccount)
deriving DecidableEq

/-- `AccountScrapeResult` of `src/types.ts`: institution id plus scrape result. -/
structure AccountScrapeResult where
  companyId : String
  result : ScrapeResult
deriving DecidableEq

/-- One `sendError` report emitted by the normalizer: the thrown error plus the
contents of the context string, which names the institution, the account and the
offending raw payload (`Failed to process transaction for <companyId> account
<account>:\n<JSON of tx>`). -/
structure ErrorReport where
  companyId : String
  accountNumber : String
  payload : RawTxn
  error : MalformedTransactionError
deriving DecidableEq

/-- The body of the `try` block of `resultsToTransactions`: build the canonical
row for one raw transaction.  `transactionHash` is evaluated first (as in the
object literal), so its error is the one reported when both would fail. -/
def rowOfTx (env : Env) (tx : RawTxn) (companyId account : String) :
    Except MalformedTransactionError TransactionRow :=
  match transactionHash env tx companyId account with
  | .error e => .error e
  | .ok h =>
      match transactionUniqueId env tx companyId account with
      | .error e => .error e
      | .ok u =>
          .ok { tx := tx, account := account, companyId := companyId, hash := h, uniqueId := u }

/-- Inner loop of `resultsToTransactions`: `for (let tx of account.txns)` with
the `try { txns.push({...}) } catch (error) { sendError(...) }` body.  The first
component is what gets pushed onto `txns`, the second the `sendError` reports,
both in program order. -/
def processTxns (env : Env) (companyId account : String) :
    List RawTxn → List TransactionRow × List ErrorReport
  | [] => ([], [])
  | tx :: rest =>
      let r := processTxns env companyId account rest
      match rowOfTx env tx companyId account with
      | .ok row => (row :: r.1, r.2)
      | .error e =>
          (r.1, { companyId := companyId, accountNumber := account, payload := tx, error := e } :: r.2)

/-- Middle loop: `for (let account of result.accounts ?? [])`. -/
def processAccounts (env : Env) (companyId : String) :
    List ScrapedAccount → List TransactionRow × List ErrorReport
  | [] => ([], [])
  | a :: rest =>
      let h := processTxns env companyId a.accountNumber a.txns
      let r := processAccounts env companyId rest
      (h.1 ++ r.1, h.2 ++ r.2)

/-- `resultsToTransactions` (src/bot/storage/index.ts): flatten the successful
results into canonical rows; report (second component) and drop each raw
transaction whose hash derivation throws.  Results with `success: false` are
skipped entirely. -/
def resultsToTransactions (env : Env) :
    List AccountScrapeResult → List TransactionRow × List ErrorReport
  | [] => ([], [])
  | r :: rest =>
      let h :=
        if r.result.success then processAccounts env r.companyId (r.result.accounts.getD [])
        else ([], [])
      let t := resultsToTransactions env rest
      (h.1 ++ t.1, h.2 ++ t.2)

/-- Spec-side helper: the raw transactions of the successful results, flattened
in input order, each tagged with its institution and account. -/
def accountTriples (companyId : String) (a : ScrapedAccount) : List (String × String × RawTxn) :=
  a.txns.map (fun tx => (companyId, a.accountNumber, tx))

/-- Spec-side helper: all `(companyId, accountNumber, rawTxn)` triples of the
successful results, in input order; failed results contribute nothing. -/
def rawTriples (results : List AccountScrapeResult) : List (String × String × RawTxn) :=
  results.flatMap fun r =>
    if r.result.success then (r.result.accounts.getD []).flatMap (accountTriples r.companyId)
    else []

/-- Whether derivation throws for this raw transaction (Boolean, so concrete
instances evaluate). -/
def isMalformed (env : Env) (p : String × String × RawTxn) : Bool :=
  match rowOfTx env p.2.2 p.1 p.2.1 with
  | .ok _ => false
  | .error _ => true

/-- The diagnostic report a triple would produce, when derivation fails. -/
def reportOf (env : Env) (p : String × String × RawTxn) : Option ErrorReport :=
  match rowOfTx env p.2.2 p.1 p.2.1 with
  | .ok _ => none
  | .error e => some { companyId := p.1, accountNumber := p.2.1, payload := p.2.2, error := e }

/-- The canonical row a triple produces, when derivation succeeds. -/
def okOf (env : Env) (p : String × String × RawTxn) : Option TransactionRow :=
  (rowOfTx env p.2.2 p.1 p.2.1).toOption

/-- Claim C3's spec-side definition, following the spec's words: the canonical
output is, in input order, the concatenation over successful results of their
account batches' transactions, each augmented with account, companyId, hash and
uniqueId; a failed derivation contributes a diagnostic report instead. -/
def normalizerSpec (env : Env) (results : List AccountScrapeResult) :
    List TransactionRow × List ErrorReport :=
  ((rawTriples results).filterMap (okOf env),
   (rawTriples results).filterMap (reportOf env))

/-! ## Storage orchestrator (`saveResults`, src/bot/storage/index.ts) -/

/-- `SaveStats` as consumed by the orchestrator's final status message. -/
structure SaveStats where
  name : String
  added : Nat
  existing : Nat
  otherSkipped : Nat
deriving DecidableEq

/-- Modelled from the spec: the `Timer` class (`src/utils/Timer.ts`) is missing
from the snapshot.  Per spec 3 a `ProgressStep / Timer` is a named step with a
start timestamp and an end timestamp, open-ended until closed.  Timestamps are a
logical clock (each primitive action ticks it). -/
structure Timer where
  name : String
  start : Nat
  stop : Option Nat
deriving DecidableEq

/-- `steps.at(-1)?.end()`: close the most recent timer if there is one and it is
still open (a closed timer keeps its original end timestamp). -/
def closeLast (steps : List Timer) (t : Nat) : List Timer :=
  match steps with
  | [] => []
  | [tm] =>
      [{ tm with stop := match tm.stop with | none => some t | some c => some c }]
  | tm :: rest => tm :: closeLast rest t

/-- The notifier interactions of one backend's save task, in order: the initial
"saving" message, an `editMessage` per `onProgress` call (carrying the step
timeline at that point), the final `editMessage` with the stats summary on
success, or the `sendError` (tagged `saveTransactions::<name>`) on failure. -/
inductive TaskEvent where
  | savingSent (backend : String)
  | progressEdited (backend : String) (steps : List Timer)
  | statsEdited (stats : SaveStats) (duration : Nat) (steps : List Timer)
  | errorSent (context : String)
deriving DecidableEq

/-- The orchestrator's `onProgress` callback, applied to the backend's sequence
of step names: each call ends the previous step's timer, pushes a new open timer
and edits the status message with the current timeline.  Returns the emitted
events, the final `steps` array and the final clock. -/
def onProgressLoop (backend : String) (t : Nat) (names : List String) (steps : List Timer) :
    List TaskEvent × List Timer × Nat :=
  match names with
  | [] => ([], steps, t)
  | n :: ns =>
      let steps' := closeLast steps t ++ [{ name := n, start := t + 1, stop := none }]
      let rest := onProgressLoop backend (t + 2) ns steps'
      (TaskEvent.progressEdited backend steps' :: rest.1, rest.2.1, rest.2.2)

/-- The outcome of a backend's `saveTransactions` call: resolves with stats or
rejects with an error (modelled as its message). -/
inductive SaveOutcome where
  | ok (stats : SaveStats)
  | err (e : String)
deriving DecidableEq

/-- What one backend does when its `saveTransactions` is invoked: the sequence
of step names it passes to `onProgress` (each awaited in order), then its
outcome. -/
structure BackendRun where
  progressSteps : List String
  outcome : SaveOutcome
deriving DecidableEq

/-- A storage backend, reduced to the capability contract: its (constructor)
name, its `canSave` answer, and its `saveTransactions` behaviour as a function
of the transactions it receives. -/
structure StorageBackend where
  name : String
  canSave : Bool
  run : List TransactionRow → BackendRun

/-- Everything observable from one backend's save task: which backend, the
transactions its `saveTransactions` was invoked with, the recorded step
timeline, the notifier events, and the captured failure (if its call rejected). -/
structure TaskOutput where
  backend : String
  invokedWith : List TransactionRow
  steps : List Timer
  events : List TaskEvent
  failed : Option String
deriving DecidableEq

/-- One backend's save task, as built in `saveResults`'s `storages.map(...)`:
send the initial "saving" message, invoke `saveTransactions` once with the whole
list and the `onProgress` callback, and on success close the last step and edit
in the stats summary, while on rejection the `catch` block only reports the
error tagged `saveTransactions::<name>` (it does not touch `steps`). -/
def runStorageTask (storage : StorageBackend) (txns : List TransactionRow) : TaskOutput :=
  let br := storage.run txns
  let pr := onProgressLoop storage.name 1 br.progressSteps []
  match br.outcome with
  | .ok stats =>
      { backend := storage.name
        invokedWith := txns
        steps := closeLast pr.2.1 pr.2.2
        events := .savingSent storage.name ::
          pr.1 ++ [.statsEdited stats pr.2.2 (closeLast pr.2.1 pr.2.2)]
        failed := none }
  | .err e =>
      { backend := storage.name
        invokedWith := txns
        steps := pr.2.1
        events := .savingSent storage.name ::
          pr.1 ++ [.errorSent ("saveTransactions::" ++ storage.name)]
        failed := some e }

/-- Run-level notifier events outside the backend tasks: plain `send`s and the
normalizer's `sendError` reports. -/
inductive GlobalEvent where
  | sent (text : String)
  | derivFailure (r : ErrorReport)
deriving DecidableEq

/-- Whether a run-level event is a `send` (as opposed to a `sendError`). -/
def GlobalEvent.isSent : GlobalEvent → Bool
  | .sent _ => true
  | .derivFailure _ => false

/-! ## Invoice creation (`InvoiceCreator.ts`) and the fan-out input -/

/-- The insurance vendor names of `filterInsuranceVendorTransactions`. -/
def insuranceVendors : List String :=
  ["ילין", "אלטשולר", "מור", "אנליסט", "מגדל", "כלל", "הראל", "פניקס", "מנורה"]

/-- Whether `needle` occurs contiguously inside the second list. -/
def containsSeq (needle : List Char) : List Char → Bool
  | [] => needle.isEmpty
  | c :: rest => needle.isPrefixOf (c :: rest) || containsSeq needle rest

/-- `vendorRegex.test(d)`: the alternation of the literal vendor names matches
`d` iff some vendor name occurs in `d` as a substring. -/
def vendorMatches (d : String) : Bool :=
  insuranceVendors.any fun v => containsSeq v.toList d.toList

/-- `filterInsuranceVendorTransactions`: keep rows with positive
`originalAmount` whose description is a string matching the vendor regex. -/
def filterInsuranceVendorTransactions (txns : List TransactionRow) : List TransactionRow :=
  (txns.filter fun t => decide (0 < t.tx.originalAmount)).filter fun t =>
    match t.tx.description with
    | some d => vendorMatches d
    | none => false

/-- The combined predicate of the two chained filters (a row object is in the
filtered array iff this holds of it). -/
def isInsuranceCandidate (t : TransactionRow) : Bool :=
  decide (0 < t.tx.originalAmount) &&
    (match t.tx.description with
     | some d => vendorMatches d
     | none => false)

/-- The fields of the invoice API's `createDoc` response that
`createInvoicesForTransactions` reads. -/
structure InvoiceResponse where
  pdf_link : Option String
  doc_number : Option String
deriving DecidableEq

/-- JavaScript truthiness of an optional string (`if (res.pdf_link) ...`):
present and non-empty. -/
def truthyStr : Option String → Bool
  | some s => !(s == "")
  | none => false

/-- The effect of one loop iteration of `createInvoicesForTransactions` on the
row object `t`: if the `createDoc` request succeeded (`some r`), attach the
truthy response fields in place; a rejected/failed request is caught and leaves
the row unchanged. -/
def invoiceApply (resp : Option InvoiceResponse) (t : TransactionRow) : TransactionRow :=
  match resp with
  | none => t
  | some r =>
      let t1 := if truthyStr r.pdf_link then { t with pdf_link := r.pdf_link } else t
      if truthyStr r.doc_number then { t1 with doc_number := r.doc_number } else t1

/-- `InvoiceCreator.createInvoicesForTransactions`: iterates over the rows it is
given, mutating each in place with the response fields, and returns the same
list.  `iw` (the "invoice world") gives the `createDoc` response for a row
(`none` = request failed / not ok, which the inner `catch` swallows). -/
def createInvoicesForTransactions (iw : TransactionRow → Option InvoiceResponse)
    (txns : List TransactionRow) : List TransactionRow :=
  txns.map fun t => invoiceApply (iw t) t

/-- The state of `allTransactions` after the invoice step: the filtered array
aliases the same row objects, so exactly the rows satisfying the filter
predicate have been mutated by `createInvoicesForTransactions`. -/
def afterInvoiceMutation (iw : TransactionRow → Option InvoiceResponse)
    (txns : List TransactionRow) : List TransactionRow :=
  txns.map fun t => if isInsuranceCandidate t then invoiceApply (iw t) t else t

/-- A row with the two invoice-attached fields reset: what the row looked like
when the normalizer created it, if nothing else was changed. -/
def stripInvoiceFields (t : TransactionRow) : TransactionRow :=
  { t with pdf_link := none, doc_number := none }

/-- The transaction list handed to every backend task: `allTransactions` after
the (conditional) invoice-creation step mutated its rows in place.  No filtering
happens between normalization and fan-out; only `config.storage.invoice` plus a
non-empty filtered subset triggers the in-place mutation. -/
def fanoutTxns (invoiceEnabled : Bool) (iw : TransactionRow → Option InvoiceResponse)
    (env : Env) (results : List AccountScrapeResult) : List TransactionRow :=
  let allTransactions := (resultsToTransactions env results).1
  if invoiceEnabled then
    if (filterInsuranceVendorTransactions allTransactions).isEmpty then allTransactions
    else afterInvoiceMutation iw allTransactions
  else allTransactions

/-- The observable outcome of one `saveResults` call: the run-level events and
the per-backend task outputs (one per active backend, collected by the
`parallel` join; concurrency between tasks is kept abstract by reporting each
task's events separately). -/
structure SaveRun where
  globals : List GlobalEvent
  tasks : List TaskOutput
deriving DecidableEq

/-- `saveResults` (src/bot/storage/index.ts).  Short-circuits: no active
storages, then an empty canonical sequence.  Then the invoice step (whose
per-transaction failures are swallowed and whose wrapper `try/catch` therefore
never fires), then the parallel fan-out, one task per backend, each with its own
`try/catch` so a backend failure is a captured value.  The function is total: no
backend failure propagates out of it. -/
def saveResults (invoiceEnabled : Bool) (iw : TransactionRow → Option InvoiceResponse)
    (storages : List StorageBackend) (env : Env) (results : List AccountScrapeResult) : SaveRun :=
  if storages.isEmpty then
    { globals := [.sent "No storages found, skipping save"], tasks := [] }
  else
    let norm := resultsToTransactions env results
    let gerrs := norm.2.map GlobalEvent.derivFailure
    if norm.1.isEmpty then
      { globals := gerrs ++ [.sent "No transactions found, skipping save"], tasks := [] }
    else
      { globals := gerrs
        tasks := storages.map fun s => runStorageTask s (fanoutTxns invoiceEnabled iw env results) }

/-! ## GoogleSheetsStorage (`sheets.ts`, part_004) -/

/-- The per-transaction decision of the `txns.filter` callback in
`GoogleSheetsStorage.saveTransactions`: first component is whether the
transaction is kept (will be among the rows added), second is its contribution
to `stats.existing` (the callback body increments it 0 or 1 times). -/
def sheetsDecide (moneymanHash : Bool) (existingHashes : List String)
    (tx : TransactionRow) : Bool × Nat :=
  if moneymanHash && existingHashes.contains tx.uniqueId then (false, 1)
  else if existingHashes.contains tx.hash then
    (false, if existingHashes.contains tx.uniqueId then 0 else 1)
  else (decide (tx.tx.status ≠ TxStatus.pending), 0)

/-- The filter loop: the kept transactions in order, plus the total
`stats.existing` increment. -/
def sheetsFilterLoop (moneymanHash : Bool) (existingHashes : List String) :
    List TransactionRow → List TransactionRow × Nat
  | [] => ([], 0)
  | tx :: rest =>
      let d := sheetsDecide moneymanHash existingHashes tx
      let r := sheetsFilterLoop moneymanHash existingHashes rest
      (if d.1 then tx :: r.1 else r.1, d.2 + r.2)

/-- The counters of the sheet's `SaveStats` that the filter determines. -/
structure SheetsSaveOutcome where
  newTxns : List TransactionRow
  existing : Nat
  added : Nat
deriving DecidableEq

/-- Pure decision core of `GoogleSheetsStorage.saveTransactions` (part_004,
lines 55-95): given the configured hash type, the hash set loaded from the
sheet, and the incoming transactions, compute the rows to add (`newTxns`, which
become the `rows` passed to `sheet.addRows` and the `Added` highlight), the
`existing` count, and `added` (`createSaveStats` starts the counters at zero;
`added` is set to `rows.length`).  The `addRows` failure recovery (lines
99-120) only adjusts `added`/`otherSkipped` afterwards and adds no rows. -/
def GoogleSheetsStorage.saveTransactionsCore (moneymanHash : Bool)
    (existingHashes : List String) (txns : List TransactionRow) : SheetsSaveOutcome :=
  let p := sheetsFilterLoop moneymanHash existingHashes txns
  { newTxns := p.1, existing := p.2, added := p.1.length }

/-! ## Step-timeline bookkeeping (statement vocabulary for C6/C7) -/

/-- Closed form of the `steps` array built by the `onProgress` callback, given
the clock `t` at the next call, the most recent step's name `m` and start `s`,
and the remaining step names: every earlier step is closed at the moment its
successor is opened, and the final step stays open. -/
def expectedSteps : Nat → String → Nat → List String → List Timer
  | _, m, s, [] => [{ name := m, start := s, stop := none }]
  | t, m, s, n :: ns =>
      { name := m, start := s, stop := some t } :: expectedSteps (t + 2) n (t + 1) ns

/-- Every step except possibly the last is closed, with a non-negative duration,
before its successor opens. -/
def chainClosedBefore : List Timer → Bool
  | [] => true
  | [_] => true
  | a :: b :: rest =>
      (match a.stop with
       | some c => decide (a.start ≤ c) && decide (c < b.start)
       | none => false) && chainClosedBefore (b :: rest)

/-- Every closed timer has a non-negative duration. -/
def durAll (steps : List Timer) : Bool :=
  steps.all fun tm =>
    match tm.stop with
    | some c => decide (tm.start ≤ c)
    | none => true

/-! ## Concrete instances used by witnesses and counterexamples -/

/-- A well-formed raw transaction (all required fields present). -/
def exampleRawGood (d : String) : RawTxn :=
  { date := some d, amount := some 10, description := some "shop", originalAmount := 10,
    processedDate := "p", memo := none, status := .completed }

/-- A malformed raw transaction: the date is missing. -/
def exampleRawBad : RawTxn :=
  { date := none, amount := some 10, description := some "shop", originalAmount := 10,
    processedDate := "p", memo := none, status := .completed }

/-- The batch of spec testable property 2: five raw transactions, exactly one
with a missing date. -/
def exampleResultsC2 : List AccountScrapeResult :=
  [{ companyId := "bank",
     result := { success := true,
                 accounts := some [{ accountNumber := "123",
                                     txns := [exampleRawGood "d1", exampleRawGood "d2",
                                              exampleRawBad, exampleRawGood "d3",
                                              exampleRawGood "d4"] }] } }]

/-- One successful scrape result with a single well-formed transaction. -/
def exampleResultsOne : List AccountScrapeResult :=
  [{ companyId := "bank",
     result := { success := true,
                 accounts := some [{ accountNumber := "123",
                                     txns := [exampleRawGood "d1"] }] } }]

/-- An invoice world in which every `createDoc` request fails. -/
def invoiceWorldNone : TransactionRow → Option InvoiceResponse := fun _ => none

/-- A backend whose `saveTransactions` always rejects after one progress step. -/
def exampleBackendFailing : StorageBackend :=
  { name := "AzureDataExplorerStorage", canSave := true,
    run := fun _ => { progressSteps := ["connect"], outcome := .err "connection refused" } }

/-- A backend whose `saveTransactions` resolves with `added: 3` after two
progress steps. -/
def exampleBackendOk : StorageBackend :=
  { name := "GoogleSheetsStorage", canSave := true,
    run := fun _ =>
      { progressSteps := ["fetch", "write"],
        outcome := .ok { name := "Google Sheets", added := 3, existing := 0, otherSkipped := 0 } } }

/-- A raw transaction whose description matches the insurance vendor regex and
whose `originalAmount` is positive: the invoice step will touch its row. -/
def exampleRawVendor : RawTxn :=
  { date := some "d", amount := some 7, description := some "מגדל", originalAmount := 7,
    processedDate := "p", memo := none, status := .completed }

/-- One successful scrape result carrying the vendor-matching transaction. -/
def exampleResultsVendor : List AccountScrapeResult :=
  [{ companyId := "ins",
     result := { success := true,
                 accounts := some [{ accountNumber := "a1", txns := [exampleRawVendor] }] } }]

/-- An invoice world whose `createDoc` responses carry a pdf link and a document
number. -/
def invoiceWorldLinks : TransactionRow → Option InvoiceResponse :=
  fun _ => some { pdf_link := some "https://x/1.pdf", doc_number := some "7" }

/-- A canonical row whose `uniqueId` is already in the sheet but whose legacy
`hash` is not. -/
def exampleRowU1 : TransactionRow :=
  { tx := exampleRawGood "d1", account := "123", companyId := "bank",
    hash := "h-new", uniqueId := "u1" }

/-! ## Normalizer lemmas -/

lemma processTxns_eq (env : Env) (c a : String) (txs : List RawTxn) :
    processTxns env c a txs =
      ((txs.map fun tx => (c, a, tx)).filterMap (okOf env),
       (txs.map fun tx => (c, a, tx)).filterMap (reportOf env)) := by
  induction txs with
  | nil => rfl
  | cons tx rest ih =>
      simp only [processTxns, List.map_cons, List.filterMap_cons, ih]
      cases h : rowOfTx env tx c a with
      | ok row => simp [okOf, reportOf, h, Except.toOption]
      | error e => simp [okOf, reportOf, h, Except.toOption]

lemma processAccounts_eq (env : Env) (c : String) (accs : List ScrapedAccount) :
    processAccounts env c accs =
      ((accs.flatMap (accountTriples c)).filterMap (okOf env),
       (accs.flatMap (accountTriples c)).filterMap (reportOf env)) := by
  induction accs with
  | nil => rfl
  | cons acc rest ih =>
      simp only [processAccounts, List.flatMap_cons, List.filterMap_append, ih, processTxns_eq]
      rfl

/-- The imperative normalizer loop computes exactly the spec-side flattened
`filterMap`s over the raw triples. -/
lemma resultsToTransactions_eq (env : Env) (results : List AccountScrapeResult) :
    resultsToTransactions env results = normalizerSpec env results := by
  induction results with
  | nil => rfl
  | cons r rest ih =>
      simp only [resultsToTransactions, normalizerSpec, rawTriples, List.flatMap_cons,
        List.filterMap_append, ih]
      cases hs : r.result.success with
      | true => simp [hs, processAccounts_eq, normalizerSpec]
      | false => simp [hs, normalizerSpec]

/-- One unfolding step of `rawTriples`. -/
lemma rawTriples_cons (r : AccountScrapeResult) (rest : List AccountScrapeResult) :
    rawTriples (r :: rest) =
      (if r.result.success then (r.result.accounts.getD []).flatMap (accountTriples r.companyId)
       else []) ++ rawTriples rest := by
  simp [rawTriples]

/-- Results whose success discriminant is false contribute no raw triples. -/
lemma rawTriples_filter_success (results : List AccountScrapeResult) :
    rawTriples (results.filter fun r => r.result.success) = rawTriples results := by
  induction results with
  | nil => rfl
  | cons r rest ih =>
      cases hs : r.result.success with
      | true => simp [List.filter_cons, hs, rawTriples_cons, ih]
      | false => simp [List.filter_cons, hs, rawTriples_cons, ih]

/-- Per-triple accounting: every raw transaction of a successful result lands in
exactly one of the two output lists, and the reports are exactly the malformed
ones. -/
lemma filterMap_ok_report_length (env : Env) (l : List (String × String × RawTxn)) :
    (l.filterMap (okOf env)).length + (l.filterMap (reportOf env)).length = l.length ∧
      (l.filterMap (reportOf env)).length = (l.filter (isMalformed env)).length := by
  induction l with
  | nil => exact ⟨rfl, rfl⟩
  | cons p rest ih =>
      obtain ⟨ih1, ih2⟩ := ih
      simp only [List.filterMap_cons, List.filter_cons]
      cases h : rowOfTx env p.2.2 p.1 p.2.1 with
      | ok row =>
          simp [okOf, reportOf, isMalformed, h, Except.toOption]
          omega
      | error e =>
          simp [okOf, reportOf, isMalformed, h, Except.toOption]
          omega

/-- A successful derivation creates the row with no invoice fields attached. -/
lemma rowOfTx_ok_invoice_fields_none (env : Env) (tx : RawTxn) (c a : String)
    (row : TransactionRow) (h : rowOfTx env tx c a = .ok row) :
    row.pdf_link = none ∧ row.doc_number = none := by
  unfold rowOfTx at h
  cases h1 : transactionHash env tx c a with
  | error e => rw [h1] at h; cases h
  | ok hsh =>
      rw [h1] at h
      cases h2 : transactionUniqueId env tx c a with
      | error e => rw [h2] at h; cases h
      | ok u =>
          rw [h2] at h
          cases h
          exact ⟨rfl, rfl⟩

/-- Every row the normalizer outputs has `pdf_link = none` and
`doc_number = none`. -/
lemma mem_normalizer_invoice_fields_none (env : Env) (results : List AccountScrapeResult)
    (row : TransactionRow) (h : row ∈ (resultsToTransactions env results).1) :
    row.pdf_link = none ∧ row.doc_number = none := by
  rw [resultsToTransactions_eq] at h
  obtain ⟨p, _, hp⟩ := List.mem_filterMap.mp h
  unfold okOf at hp
  cases hr : rowOfTx env p.2.2 p.1 p.2.1 with
  | ok r0 =>
      rw [hr] at hp
      cases hp
      exact rowOfTx_ok_invoice_fields_none env p.2.2 p.1 p.2.1 _ hr
  | error e => rw [hr] at hp; cases hp

/-! ## Claims C2, C3, C9 -/

/-- Claim C3: for every input sequence of raw account results, the normalizer's
canonical output equals, in input order, the concatenation over successful
results of their account batches' transactions, each augmented with exactly
account, companyId, hash and uniqueId (`normalizerSpec`); and results whose
success discriminant is false contribute zero transactions and zero error
reports (dropping them changes neither output). -/
theorem c3_normalizer_output_characterized (env : Env) (results : List AccountScrapeResult) :
    resultsToTransactions env results = normalizerSpec env results ∧
      resultsToTransactions env (results.filter fun r => r.result.success) =
        resultsToTransactions env results := by
  refine ⟨resultsToTransactions_eq env results, ?_⟩
  rw [resultsToTransactions_eq, resultsToTransactions_eq]
  unfold normalizerSpec
  rw [rawTriples_filter_success]

/-- Claim C2: if deriving hash or uniqueId throws for exactly one raw
transaction of the batch, the normalizer drops exactly that transaction (output
is one short of the raw count), reports exactly one diagnostic error, and that
report carries the offending institution, account and raw payload; the batch is
not aborted. -/
theorem c2_malformed_transaction_isolated (env : Env) (results : List AccountScrapeResult)
    (h : ((rawTriples results).filter (isMalformed env)).length = 1) :
    (resultsToTransactions env results).1.length + 1 = (rawTriples results).length ∧
      (resultsToTransactions env results).2.length = 1 ∧
      ∀ r ∈ (resultsToTransactions env results).2,
        (r.companyId, r.accountNumber, r.payload) ∈ rawTriples results ∧
          isMalformed env (r.companyId, r.accountNumber, r.payload) = true := by
  obtain ⟨hsum, herr⟩ := filterMap_ok_report_length env (rawTriples results)
  have h1 : (resultsToTransactions env results).1 = (rawTriples results).filterMap (okOf env) := by
    rw [resultsToTransactions_eq]; rfl
  have h2 : (resultsToTransactions env results).2 =
      (rawTriples results).filterMap (reportOf env) := by
    rw [resultsToTransactions_eq]; rfl
  rw [h1, h2]
  refine ⟨by omega, by omega, ?_⟩
  intro r hr
  obtain ⟨p, hpmem, hp⟩ := List.mem_filterMap.mp hr
  obtain ⟨pc, pa, ptx⟩ := p
  unfold reportOf at hp
  cases hrow : rowOfTx env ptx pc pa with
  | ok row => rw [hrow] at hp; cases hp
  | error e =>
      rw [hrow] at hp
      cases hp
      exact ⟨hpmem, by simp [isMalformed, hrow]⟩

/-- Claim C9: the dedup-key derivers are deterministic and independent of
ambient state: two invocations with identical transaction, institution and
account — even under different wall clocks or randomness — return identical
results. -/
theorem c9_derivers_deterministic :
    ∀ (e1 e2 : Env) (tx : RawTxn) (c a : String),
      transactionHash e1 tx c a = transactionHash e2 tx c a ∧
        transactionUniqueId e1 tx c a = transactionUniqueId e2 tx c a :=
  fun _ _ _ _ _ => ⟨rfl, rfl⟩

theorem c2_witness :
    ((rawTriples exampleResultsC2).filter (isMalformed ⟨0, 0⟩)).length = 1 ∧
      ((resultsToTransactions ⟨0, 0⟩ exampleResultsC2).1.length + 1 =
          (rawTriples exampleResultsC2).length ∧
        (resultsToTransactions ⟨0, 0⟩ exampleResultsC2).2.length = 1 ∧
        ∀ r ∈ (resultsToTransactions ⟨0, 0⟩ exampleResultsC2).2,
          (r.companyId, r.accountNumber, r.payload) ∈ rawTriples exampleResultsC2 ∧
            isMalformed ⟨0, 0⟩ (r.companyId, r.accountNumber, r.payload) = true) :=
  ⟨by decide, c2_malformed_transaction_isolated ⟨0, 0⟩ exampleResultsC2 (by decide)⟩

/-! ## Orchestrator lemmas -/

/-- Past the two short-circuit checks, `saveResults` reports the normalizer's
diagnostics and runs one save task per active backend over the shared fan-out
list. -/
lemma saveResults_fanout (invoiceEnabled : Bool) (iw : TransactionRow → Option InvoiceResponse)
    (storages : List StorageBackend) (env : Env) (results : List AccountScrapeResult)
    (hS : storages ≠ []) (hT : (resultsToTransactions env results).1 ≠ []) :
    saveResults invoiceEnabled iw storages env results =
      { globals := (resultsToTransactions env results).2.map GlobalEvent.derivFailure,
        tasks := storages.map fun s =>
          runStorageTask s (fanoutTxns invoiceEnabled iw env results) } := by
  have h1 : storages.isEmpty = false := by
    cases storages with
    | nil => exact absurd rfl hS
    | cons a l => rfl
  have h2 : (resultsToTransactions env results).1.isEmpty = false := by
    cases hl : (resultsToTransactions env results).1 with
    | nil => exact absurd hl hT
    | cons a l => rfl
  simp [saveResults, h1, h2]

/-- Each task invokes its backend's `saveTransactions` with exactly the list it
was given. -/
lemma runStorageTask_invokedWith (s : StorageBackend) (txns : List TransactionRow) :
    (runStorageTask s txns).invokedWith = txns := by
  cases h : (s.run txns).outcome <;> simp [runStorageTask, h]

/-- A backend whose call resolves has no captured failure and gets its final
stats message. -/
lemma runStorageTask_ok_stats (s : StorageBackend) (txns : List TransactionRow)
    (stats : SaveStats) (h : (s.run txns).outcome = .ok stats) :
    (runStorageTask s txns).failed = none ∧
      ∃ d st, TaskEvent.statsEdited stats d st ∈ (runStorageTask s txns).events := by
  refine ⟨by simp [runStorageTask, h], ?_⟩
  refine ⟨(onProgressLoop s.name 1 (s.run txns).progressSteps []).2.2,
    closeLast (onProgressLoop s.name 1 (s.run txns).progressSteps []).2.1
      (onProgressLoop s.name 1 (s.run txns).progressSteps []).2.2, ?_⟩
  simp [runStorageTask, h]

/-- Stripping the invoice fields erases everything `invoiceApply` can change. -/
lemma strip_invoiceApply (resp : Option InvoiceResponse) (t : TransactionRow) :
    stripInvoiceFields (invoiceApply resp t) = stripInvoiceFields t := by
  cases resp with
  | none => rfl
  | some r =>
      unfold invoiceApply
      by_cases h1 : truthyStr r.pdf_link = true <;> by_cases h2 : truthyStr r.doc_number = true <;>
        simp [h1, h2, stripInvoiceFields]

/-- A row carrying no invoice fields is untouched by the strip. -/
lemma strip_eq_self {t : TransactionRow} (h1 : t.pdf_link = none) (h2 : t.doc_number = none) :
    stripInvoiceFields t = t := by
  cases t
  simp_all [stripInvoiceFields]

/-- The fan-out input is the canonical sequence up to the invoice fields: same
length, and identical once `pdf_link`/`doc_number` are stripped. -/
lemma fanout_strip (invoiceEnabled : Bool) (iw : TransactionRow → Option InvoiceResponse)
    (env : Env) (results : List AccountScrapeResult) :
    (fanoutTxns invoiceEnabled iw env results).map stripInvoiceFields =
        (resultsToTransactions env results).1 ∧
      (fanoutTxns invoiceEnabled iw env results).length =
        (resultsToTransactions env results).1.length := by
  have hid : ((resultsToTransactions env results).1).map stripInvoiceFields =
      (resultsToTransactions env results).1 := by
    refine (List.map_congr_left ?_).trans (List.map_id _)
    intro r hr
    obtain ⟨hp, hd⟩ := mem_normalizer_invoice_fields_none env results r hr
    exact strip_eq_self hp hd
  have hmut : (afterInvoiceMutation iw ((resultsToTransactions env results).1)).map
      stripInvoiceFields = (resultsToTransactions env results).1 := by
    unfold afterInvoiceMutation
    rw [List.map_map]
    refine Eq.trans ?_ hid
    refine List.map_congr_left ?_
    intro r hr
    by_cases hc : isInsuranceCandidate r = true <;>
      simp [Function.comp, hc, strip_invoiceApply]
  constructor
  · unfold fanoutTxns
    by_cases hinv : invoiceEnabled = true <;>
      by_cases hf : (filterInsuranceVendorTransactions
          ((resultsToTransactions env results).1)).isEmpty = true <;>
        simp [hinv, hf, hid, hmut]
  · unfold fanoutTxns
    by_cases hinv : invoiceEnabled = true <;>
      by_cases hf : (filterInsuranceVendorTransactions
          ((resultsToTransactions env results).1)).isEmpty = true <;>
        simp [hinv, hf, afterInvoiceMutation]

/-- The normalizer's diagnostics are `sendError`s, not `send`s. -/
lemma filter_isSent_derivFailures (l : List ErrorReport) :
    (l.map GlobalEvent.derivFailure).filter GlobalEvent.isSent = [] := by
  induction l with
  | nil => rfl
  | cons r rest ih => simp [List.filter_cons, GlobalEvent.isSent, ih]

/-! ## Claims C8, C4, C5, C1 -/

/-- Claim C8: when the canonical sequence is empty after normalization (no raw
results, all failed, or every transaction dropped), no backend task is spawned
— no `saveTransactions` is invoked — and exactly one plain notification, the
"No transactions found, skipping save" message, is sent; `saveResults` returns
this outcome normally (it is a total function, not an error path). -/
theorem c8_empty_canonical_short_circuit (invoiceEnabled : Bool)
    (iw : TransactionRow → Option InvoiceResponse) (storages : List StorageBackend)
    (env : Env) (results : List AccountScrapeResult)
    (hS : storages ≠ []) (hT : (resultsToTransactions env results).1 = []) :
    (saveResults invoiceEnabled iw storages env results).tasks = [] ∧
      (saveResults invoiceEnabled iw storages env results).globals.filter GlobalEvent.isSent =
        [.sent "No transactions found, skipping save"] := by
  have h1 : storages.isEmpty = false := by
    cases storages with
    | nil => exact absurd rfl hS
    | cons a l => rfl
  have h2 : (resultsToTransactions env results).1.isEmpty = true := by rw [hT]; rfl
  constructor
  · simp [saveResults, h1, h2]
  · simp [saveResults, h1, h2, List.filter_append, filter_isSent_derivFailures,
      GlobalEvent.isSent, List.filter_cons]

theorem c8_witness :
    ([exampleBackendOk] ≠ ([] : List StorageBackend) ∧
        (resultsToTransactions ⟨0, 0⟩ []).1 = []) ∧
      ((saveResults false invoiceWorldNone [exampleBackendOk] ⟨0, 0⟩ []).tasks = [] ∧
        (saveResults false invoiceWorldNone [exampleBackendOk] ⟨0, 0⟩ []).globals.filter
            GlobalEvent.isSent = [.sent "No transactions found, skipping save"]) :=
  ⟨⟨List.cons_ne_nil _ _, rfl⟩,
    c8_empty_canonical_short_circuit false invoiceWorldNone [exampleBackendOk] ⟨0, 0⟩ []
      (List.cons_ne_nil _ _) rfl⟩

/-- Claim C4: whenever the run reaches the fan-out (non-empty canonical
sequence, non-empty active backend set), every active backend gets exactly one
save task, each task invokes `saveTransactions` exactly once with the same
shared fan-out list, and that list is the normalizer's canonical sequence with
nothing filtered out: same length, and identical up to the invoice fields the
invoice step may have attached in place. -/
theorem c4_fanout_same_sequence (invoiceEnabled : Bool)
    (iw : TransactionRow → Option InvoiceResponse) (storages : List StorageBackend)
    (env : Env) (results : List AccountScrapeResult)
    (hS : storages ≠ []) (hT : (resultsToTransactions env results).1 ≠ []) :
    (saveResults invoiceEnabled iw storages env results).tasks.length = storages.length ∧
      (∀ t ∈ (saveResults invoiceEnabled iw storages env results).tasks,
        t.invokedWith = fanoutTxns invoiceEnabled iw env results) ∧
      (fanoutTxns invoiceEnabled iw env results).length =
        (resultsToTransactions env results).1.length ∧
      (fanoutTxns invoiceEnabled iw env results).map stripInvoiceFields =
        (resultsToTransactions env results).1 := by
  rw [saveResults_fanout invoiceEnabled iw storages env results hS hT]
  obtain ⟨hstrip, hlen⟩ := fanout_strip invoiceEnabled iw env results
  refine ⟨by simp, ?_, hlen, hstrip⟩
  intro t ht
  obtain ⟨s, _, hs⟩ := List.mem_map.mp ht
  rw [← hs, runStorageTask_invokedWith]

theorem c4_witness :
    ([exampleBackendOk, exampleBackendFailing] ≠ ([] : List StorageBackend) ∧
        (resultsToTransactions ⟨0, 0⟩ exampleResultsOne).1 ≠ []) ∧
      ((saveResults false invoiceWorldNone [exampleBackendOk, exampleBackendFailing] ⟨0, 0⟩
            exampleResultsOne).tasks.length = 2 ∧
        (∀ t ∈ (saveResults false invoiceWorldNone [exampleBackendOk, exampleBackendFailing]
            ⟨0, 0⟩ exampleResultsOne).tasks,
          t.invokedWith = fanoutTxns false invoiceWorldNone ⟨0, 0⟩ exampleResultsOne) ∧
        (fanoutTxns false invoiceWorldNone ⟨0, 0⟩ exampleResultsOne).length =
          (resultsToTransactions ⟨0, 0⟩ exampleResultsOne).1.length ∧
        (fanoutTxns false invoiceWorldNone ⟨0, 0⟩ exampleResultsOne).map stripInvoiceFields =
          (resultsToTransactions ⟨0, 0⟩ exampleResultsOne).1) :=
  ⟨⟨List.cons_ne_nil _ _, by decide⟩,
    c4_fanout_same_sequence false invoiceWorldNone [exampleBackendOk, exampleBackendFailing]
      ⟨0, 0⟩ exampleResultsOne (List.cons_ne_nil _ _) (by decide)⟩

/-- Claim C5 counterexample: with invoice creation enabled and a `createDoc`
response carrying a pdf link, the row handed to the backend differs from the
row the normalizer created — the invoice step mutated the shared record
(`pdf_link` went from `none` to the response's link) before the fan-out. -/
theorem c5_counterexample :
    ((saveResults true invoiceWorldLinks [exampleBackendOk] ⟨0, 0⟩
          exampleResultsVendor).tasks.map fun t => t.invokedWith.map fun r => r.pdf_link) =
        [[some "https://x/1.pdf"]] ∧
      ((resultsToTransactions ⟨0, 0⟩ exampleResultsVendor).1.map fun r => r.pdf_link) =
        [none] := by
  decide

/-- Claim C5 as amended: the core preserves every canonical field except
`pdf_link` and `doc_number` — stripping those two fields from any row handed to
any backend recovers exactly the normalizer's canonical sequence — and when the
invoice step is disabled the rows handed to backends are exactly the canonical
rows.  (As stated, the claim is false: `InvoiceCreator.createInvoicesForTransactions`
mutates matched rows in place, and the mutated rows are what backends receive.) -/
theorem c5_amended_only_invoice_fields_mutated (invoiceEnabled : Bool)
    (iw : TransactionRow → Option InvoiceResponse) (storages : List StorageBackend)
    (env : Env) (results : List AccountScrapeResult)
    (hS : storages ≠ []) (hT : (resultsToTransactions env results).1 ≠ []) :
    (∀ t ∈ (saveResults invoiceEnabled iw storages env results).tasks,
        t.invokedWith.map stripInvoiceFields = (resultsToTransactions env results).1) ∧
      (invoiceEnabled = false →
        ∀ t ∈ (saveResults invoiceEnabled iw storages env results).tasks,
          t.invokedWith = (resultsToTransactions env results).1) := by
  rw [saveResults_fanout invoiceEnabled iw storages env results hS hT]
  obtain ⟨hstrip, _⟩ := fanout_strip invoiceEnabled iw env results
  constructor
  · intro t ht
    obtain ⟨s, _, hs⟩ := List.mem_map.mp ht
    rw [← hs, runStorageTask_invokedWith, hstrip]
  · intro hinv t ht
    obtain ⟨s, _, hs⟩ := List.mem_map.mp ht
    rw [← hs, runStorageTask_invokedWith]
    simp [fanoutTxns, hinv]

theorem c5_amended_witness :
    ([exampleBackendOk] ≠ ([] : List StorageBackend) ∧
        (resultsToTransactions ⟨0, 0⟩ exampleResultsVendor).1 ≠ []) ∧
      ((∀ t ∈ (saveResults true invoiceWorldLinks [exampleBackendOk] ⟨0, 0⟩
            exampleResultsVendor).tasks,
          t.invokedWith.map stripInvoiceFields =
            (resultsToTransactions ⟨0, 0⟩ exampleResultsVendor).1) ∧
        (true = false →
          ∀ t ∈ (saveResults true invoiceWorldLinks [exampleBackendOk] ⟨0, 0⟩
              exampleResultsVendor).tasks,
            t.invokedWith = (resultsToTransactions ⟨0, 0⟩ exampleResultsVendor).1)) :=
  ⟨⟨List.cons_ne_nil _ _, by decide⟩,
    c5_amended_only_invoice_fields_mutated true invoiceWorldLinks [exampleBackendOk] ⟨0, 0⟩
      exampleResultsVendor (List.cons_ne_nil _ _) (by decide)⟩

/-- Claim C1: a backend failure is a captured value inside that backend's own
task.  With at least two active backends, if backend `i`'s `saveTransactions`
rejects: the join still collects one task output per active backend; every
other backend `j`'s task output is exactly what running `j` alone on the shared
fan-out list produces; if `j`'s call resolves, its task has no captured failure
and its final stats message is produced; and replacing backend `i` by any other
backend leaves `j`'s task output unchanged — the failure cannot alter a sibling.
`saveResults` is a total function: no backend failure propagates out of it. -/
theorem c1_backend_failure_isolated (invoiceEnabled : Bool)
    (iw : TransactionRow → Option InvoiceResponse) (storages : List StorageBackend)
    (env : Env) (results : List AccountScrapeResult)
    (i j : Nat) (si sj : StorageBackend) (e : String)
    (h2 : 2 ≤ storages.length)
    (hT : (resultsToTransactions env results).1 ≠ [])
    (hi : storages[i]? = some si)
    (hj : storages[j]? = some sj)
    (hfail : (si.run (fanoutTxns invoiceEnabled iw env results)).outcome = SaveOutcome.err e)
    (hne : j ≠ i) :
    (saveResults invoiceEnabled iw storages env results).tasks.length = storages.length ∧
      (saveResults invoiceEnabled iw storages env results).tasks[j]? =
        some (runStorageTask sj (fanoutTxns invoiceEnabled iw env results)) ∧
      (∀ stats,
        (sj.run (fanoutTxns invoiceEnabled iw env results)).outcome = SaveOutcome.ok stats →
        ∃ t, (saveResults invoiceEnabled iw storages env results).tasks[j]? = some t ∧
          t.failed = none ∧ ∃ d st, TaskEvent.statsEdited stats d st ∈ t.events) ∧
      (∀ b', (saveResults invoiceEnabled iw (storages.set i b') env results).tasks[j]? =
        (saveResults invoiceEnabled iw storages env results).tasks[j]?) := by
  have hS : storages ≠ [] := by
    intro h
    rw [h] at h2
    simp at h2
  rw [saveResults_fanout invoiceEnabled iw storages env results hS hT]
  have hjmap : (storages.map fun s =>
      runStorageTask s (fanoutTxns invoiceEnabled iw env results))[j]? =
      some (runStorageTask sj (fanoutTxns invoiceEnabled iw env results)) := by
    rw [List.getElem?_map, hj, Option.map_some']
  refine ⟨by simp, hjmap, ?_, ?_⟩
  · intro stats hok
    refine ⟨runStorageTask sj (fanoutTxns invoiceEnabled iw env results), hjmap, ?_⟩
    exact runStorageTask_ok_stats sj (fanoutTxns invoiceEnabled iw env results) stats hok
  · intro b'
    have hS' : storages.set i b' ≠ [] := by
      intro h
      have := congrArg List.length h
      rw [List.length_set] at this
      rw [this] at h2
      simp at h2
    rw [saveResults_fanout invoiceEnabled iw (storages.set i b') env results hS' hT]
    rw [List.getElem?_map, List.getElem?_map, List.getElem?_set_ne (fun h => hne h.symm)]

theorem c1_witness :
    (2 ≤ ([exampleBackendFailing, exampleBackendOk] : List StorageBackend).length ∧
        (resultsToTransactions ⟨0, 0⟩ exampleResultsOne).1 ≠ [] ∧
        ([exampleBackendFailing, exampleBackendOk] : List StorageBackend)[0]? =
          some exampleBackendFailing ∧
        ([exampleBackendFailing, exampleBackendOk] : List StorageBackend)[1]? =
          some exampleBackendOk ∧
        (exampleBackendFailing.run (fanoutTxns false invoiceWorldNone ⟨0, 0⟩
            exampleResultsOne)).outcome = SaveOutcome.err "connection refused") ∧
      ((saveResults false invoiceWorldNone [exampleBackendFailing, exampleBackendOk] ⟨0, 0⟩
          exampleResultsOne).tasks.length = 2 ∧
        (saveResults false invoiceWorldNone [exampleBackendFailing, exampleBackendOk] ⟨0, 0⟩
            exampleResultsOne).tasks[1]? =
          some (runStorageTask exampleBackendOk
            (fanoutTxns false invoiceWorldNone ⟨0, 0⟩ exampleResultsOne)) ∧
        (∀ stats,
          (exampleBackendOk.run (fanoutTxns false invoiceWorldNone ⟨0, 0⟩
              exampleResultsOne)).outcome = SaveOutcome.ok stats →
          ∃ t, (saveResults false invoiceWorldNone [exampleBackendFailing, exampleBackendOk]
              ⟨0, 0⟩ exampleResultsOne).tasks[1]? = some t ∧
            t.failed = none ∧ ∃ d st, TaskEvent.statsEdited stats d st ∈ t.events) ∧
        (∀ b', (saveResults false invoiceWorldNone
            (([exampleBackendFailing, exampleBackendOk] : List StorageBackend).set 0 b') ⟨0, 0⟩
            exampleResultsOne).tasks[1]? =
          (saveResults false invoiceWorldNone [exampleBackendFailing, exampleBackendOk] ⟨0, 0⟩
            exampleResultsOne).tasks[1]?)) :=
  ⟨⟨by decide, by decide, rfl, rfl, rfl⟩,
    c1_backend_failure_isolated false invoiceWorldNone
      [exampleBackendFailing, exampleBackendOk] ⟨0, 0⟩ exampleResultsOne 0 1
      exampleBackendFailing exampleBackendOk "connection refused"
      (by decide) (by decide) rfl rfl rfl (by decide)⟩

/-! ## Step-timeline lemmas -/

lemma closeLast_append_open : ∀ (S : List Timer) (m : String) (s t : Nat),
    closeLast (S ++ [{ name := m, start := s, stop := none }]) t =
      S ++ [{ name := m, start := s, stop := some t }]
  | [], _, _, _ => rfl
  | [_], _, _, _ => rfl
  | a :: b :: S, m, s, t => by
    have ih := closeLast_append_open (b :: S) m s t
    simp only [List.cons_append] at ih ⊢
    show a :: closeLast (b :: (S ++ [{ name := m, start := s, stop := none }])) t = _
    rw [ih]

lemma onProgressLoop_append_open : ∀ (ns : List String) (b : String) (t : Nat)
    (acc : List Timer) (m : String) (s : Nat),
    (onProgressLoop b t ns (acc ++ [{ name := m, start := s, stop := none }])).2.1 =
        acc ++ expectedSteps t m s ns ∧
      (onProgressLoop b t ns (acc ++ [{ name := m, start := s, stop := none }])).2.2 =
        t + 2 * ns.length
  | [], _, t, acc, m, s => ⟨rfl, by simp [onProgressLoop]⟩
  | n :: ns, b, t, acc, m, s => by
    have ih := onProgressLoop_append_open ns b (t + 2)
      (acc ++ [{ name := m, start := s, stop := some t }]) n (t + 1)
    constructor
    · show (onProgressLoop b (t + 2) ns
          (closeLast (acc ++ [{ name := m, start := s, stop := none }]) t ++
            [{ name := n, start := t + 1, stop := none }])).2.1 = _
      rw [closeLast_append_open, ih.1, List.append_assoc, List.singleton_append]
      rfl
    · show (onProgressLoop b (t + 2) ns
          (closeLast (acc ++ [{ name := m, start := s, stop := none }]) t ++
            [{ name := n, start := t + 1, stop := none }])).2.2 = _
      rw [closeLast_append_open, ih.2]
      simp [Nat.mul_succ]
      omega

lemma onProgressLoop_cons_from_nil (b : String) (t : Nat) (n : String) (ns : List String) :
    (onProgressLoop b t (n :: ns) []).2.1 = expectedSteps (t + 2) n (t + 1) ns ∧
      (onProgressLoop b t (n :: ns) []).2.2 = t + 2 + 2 * ns.length := by
  have ih := onProgressLoop_append_open ns b (t + 2) [] n (t + 1)
  simp only [List.nil_append] at ih
  exact ih

lemma expectedSteps_map_name : ∀ (ns : List String) (t : Nat) (m : String) (s : Nat),
    (expectedSteps t m s ns).map Timer.name = m :: ns
  | [], _, _, _ => rfl
  | n :: ns, t, m, s => by
    simp only [expectedSteps, List.map_cons]
    rw [expectedSteps_map_name ns (t + 2) n (t + 1)]

lemma expectedSteps_head : ∀ (ns : List String) (t : Nat) (m : String) (s : Nat),
    ∃ o rest, expectedSteps t m s ns = { name := m, start := s, stop := o } :: rest
  | [], _, _, _ => ⟨none, [], rfl⟩
  | _ :: _, t, _, _ => ⟨some t, _, rfl⟩

lemma expectedSteps_chain : ∀ (ns : List String) (t : Nat) (m : String) (s : Nat), s ≤ t →
    chainClosedBefore (expectedSteps t m s ns) = true
  | [], _, _, _, _ => rfl
  | n :: ns, t, m, s, h => by
    obtain ⟨o, rest, hr⟩ := expectedSteps_head ns (t + 2) n (t + 1)
    have ih := expectedSteps_chain ns (t + 2) n (t + 1) (by omega)
    rw [hr] at ih
    show chainClosedBefore ({ name := m, start := s, stop := some t } ::
      expectedSteps (t + 2) n (t + 1) ns) = true
    rw [hr]
    simp only [chainClosedBefore, Bool.and_eq_true, decide_eq_true_eq]
    exact ⟨⟨h, by omega⟩, ih⟩

lemma expectedSteps_dur : ∀ (ns : List String) (t : Nat) (m : String) (s : Nat), s ≤ t →
    durAll (expectedSteps t m s ns) = true
  | [], _, _, _, _ => rfl
  | n :: ns, t, m, s, h => by
    have ih := expectedSteps_dur ns (t + 2) n (t + 1) (by omega)
    show durAll ({ name := m, start := s, stop := some t } ::
      expectedSteps (t + 2) n (t + 1) ns) = true
    simp only [durAll, List.all_cons, Bool.and_eq_true, decide_eq_true_eq] at ih ⊢
    exact ⟨h, ih⟩

lemma expectedSteps_last : ∀ (ns : List String) (t : Nat) (m : String) (s : Nat), s ≤ t →
    ∃ nm st, (expectedSteps t m s ns).getLast? =
        some { name := nm, start := st, stop := none } ∧ st ≤ t + 2 * ns.length
  | [], _, m, s, h => ⟨m, s, rfl, by omega⟩
  | n :: ns, t, m, s, _ => by
    obtain ⟨nm, st, hl, hb⟩ := expectedSteps_last ns (t + 2) n (t + 1) (by omega)
    refine ⟨nm, st, ?_, by simp only [List.length_cons]; omega⟩
    obtain ⟨o, rest, hr⟩ := expectedSteps_head ns (t + 2) n (t + 1)
    show ({ name := m, start := s, stop := some t } ::
      expectedSteps (t + 2) n (t + 1) ns).getLast? = _
    rw [hr, List.getLast?_cons_cons, ← hr, hl]

lemma expectedSteps_start_bound : ∀ (ns : List String) (t : Nat) (m : String) (s : Nat),
    s ≤ t → ∀ tm ∈ expectedSteps t m s ns, tm.start ≤ t + 2 * ns.length
  | [], t, m, s, h => by
    intro tm hm
    simp only [expectedSteps, List.mem_singleton] at hm
    subst hm
    simpa using by omega
  | n :: ns, t, m, s, h => by
    intro tm hm
    simp only [expectedSteps, List.mem_cons] at hm
    rcases hm with hm | hm
    · subst hm
      simp only [List.length_cons]
      omega
    · have := expectedSteps_start_bound ns (t + 2) n (t + 1) (by omega) tm hm
      simp only [List.length_cons]
      omega

lemma closeLast_map_name : ∀ (S : List Timer) (t : Nat),
    (closeLast S t).map Timer.name = S.map Timer.name
  | [], _ => rfl
  | [_], _ => rfl
  | a :: b :: S, t => by
    have ih := closeLast_map_name (b :: S) t
    show (a :: closeLast (b :: S) t).map Timer.name = _
    simp [ih]

lemma closeLast_chain : ∀ (S : List Timer) (t : Nat),
    chainClosedBefore (closeLast S t) = chainClosedBefore S
  | [], _ => rfl
  | [_], _ => rfl
  | [_, _], _ => rfl
  | a :: b :: c :: S, t =>
    congrArg₂ Bool.and rfl (closeLast_chain (b :: c :: S) t)

lemma durAll_closeLast : ∀ (S : List Timer) (t : Nat), durAll S = true →
    (∀ tm ∈ S, tm.stop = none → tm.start ≤ t) → durAll (closeLast S t) = true
  | [], _, _, _ => rfl
  | [a], t, h, hb => by
    cases ha : a.stop with
    | none =>
        have hle := hb a (by simp) ha
        show durAll [{ a with stop := match a.stop with | none => some t | some c => some c }] = true
        rw [ha]
        simp [durAll, hle]
    | some c =>
        show durAll [{ a with stop := match a.stop with | none => some t | some c => some c }] = true
        rw [ha]
        simpa [durAll, ha] using h
  | a :: b :: S, t, h, hb => by
    simp only [durAll, List.all_cons, Bool.and_eq_true] at h
    have ih := durAll_closeLast (b :: S) t (by simp [durAll, List.all_cons, h.2])
      (fun tm hm => hb tm (by simp [hm]))
    show durAll (a :: closeLast (b :: S) t) = true
    simp only [durAll, List.all_cons, Bool.and_eq_true] at ih ⊢
    exact ⟨h.1, ih⟩

/-! ## Claims C7 and C6 -/

/-- Claim C7: for the `n` `onProgress(stepName)` calls a backend makes during
its save, the recorded step timeline has exactly `n` timers named in exact call
order (`map Timer.name` equals the call sequence), every step before the last
was closed — with a non-negative duration — before its successor opened, and at
every point at most the most recent step is open (all earlier ones carry a close
timestamp); closed durations stay non-negative also after the success path's
final close. -/
theorem c7_progress_timeline (storage : StorageBackend) (txns : List TransactionRow) :
    (runStorageTask storage txns).steps.map Timer.name = (storage.run txns).progressSteps ∧
      chainClosedBefore (runStorageTask storage txns).steps = true ∧
      durAll (runStorageTask storage txns).steps = true := by
  rcases hbr : storage.run txns with ⟨names, outcome⟩
  cases names with
  | nil =>
      cases outcome <;>
        simp [runStorageTask, hbr, onProgressLoop, closeLast, chainClosedBefore, durAll]
  | cons n ns =>
      obtain ⟨hsteps, hclock⟩ := onProgressLoop_cons_from_nil storage.name 1 n ns
      have hchain := expectedSteps_chain ns 3 n 2 (by omega)
      have hdur := expectedSteps_dur ns 3 n 2 (by omega)
      have hname := expectedSteps_map_name ns 3 n 2
      cases outcome with
      | err e =>
          simp only [runStorageTask, hbr]
          rw [hsteps]
          exact ⟨hname, hchain, hdur⟩
      | ok stats =>
          simp only [runStorageTask, hbr]
          rw [hsteps, hclock]
          refine ⟨?_, ?_, ?_⟩
          · rw [closeLast_map_name]
            exact hname
          · rw [closeLast_chain]
            exact hchain
          · refine durAll_closeLast _ _ hdur ?_
            intro tm hm _
            have := expectedSteps_start_bound ns 3 n 2 (by omega) tm hm
            omega

/-- Claim C6 counterexample: a backend that opens one progress step and then
rejects.  The orchestrator's failure path reports the tagged error but leaves
the step's timer open (`stop = none`): it does not close the last open step, so
the claim as stated is false on this input. -/
theorem c6_counterexample :
    ((saveResults false invoiceWorldNone [exampleBackendFailing] ⟨0, 0⟩
          exampleResultsOne).tasks.map fun t => t.steps) =
        [[{ name := "connect", start := 2, stop := none }]] ∧
      ((saveResults false invoiceWorldNone [exampleBackendFailing] ⟨0, 0⟩
          exampleResultsOne).tasks.map fun t => t.events) =
        [[TaskEvent.savingSent "AzureDataExplorerStorage",
          TaskEvent.progressEdited "AzureDataExplorerStorage"
            [{ name := "connect", start := 2, stop := none }],
          TaskEvent.errorSent "saveTransactions::AzureDataExplorerStorage"]] := by
  decide

/-- Claim C6 as amended: when a backend's `saveTransactions` rejects after
opening at least one progress step, the orchestrator reports the error through
the error channel tagged `saveTransactions::<backend name>`, but does not close
the last open step's timer — the most recent step remains open (its `stop` is
`none`).  (The `catch` block in `saveResults` only logs and calls `sendError`;
the `steps.at(-1)?.end()` calls sit on the success path.) -/
theorem c6_amended_failure_reports_but_leaves_step_open (storage : StorageBackend)
    (txns : List TransactionRow) (e : String)
    (hfail : (storage.run txns).outcome = .err e)
    (hsteps : (storage.run txns).progressSteps ≠ []) :
    (∃ tm, (runStorageTask storage txns).steps.getLast? = some tm ∧ tm.stop = none) ∧
      TaskEvent.errorSent ("saveTransactions::" ++ storage.name) ∈
        (runStorageTask storage txns).events := by
  rcases hbr : storage.run txns with ⟨names, outcome⟩
  rw [hbr] at hfail hsteps
  cases names with
  | nil => exact absurd rfl hsteps
  | cons n ns =>
      obtain ⟨hst, _⟩ := onProgressLoop_cons_from_nil storage.name 1 n ns
      obtain ⟨nm, st, hl, _⟩ := expectedSteps_last ns 3 n 2 (by omega)
      simp only at hfail
      subst hfail
      constructor
      · refine ⟨{ name := nm, start := st, stop := none }, ?_, rfl⟩
        simp only [runStorageTask, hbr]
        rw [hst]
        exact hl
      · simp only [runStorageTask, hbr]
        simp

theorem c6_amended_witness :
    ((exampleBackendFailing.run []).outcome = .err "connection refused" ∧
        (exampleBackendFailing.run []).progressSteps ≠ []) ∧
      ((∃ tm, (runStorageTask exampleBackendFailing []).steps.getLast? = some tm ∧
          tm.stop = none) ∧
        TaskEvent.errorSent ("saveTransactions::" ++ exampleBackendFailing.name) ∈
          (runStorageTask exampleBackendFailing []).events) :=
  ⟨⟨rfl, by decide⟩,
    c6_amended_failure_reports_but_leaves_step_open exampleBackendFailing [] "connection refused"
      rfl (by decide)⟩

/-! ## GoogleSheetsStorage lemmas and claim C10 -/

/-- A transaction the sheets filter keeps has its legacy hash absent from the
sheet, its uniqueId absent too when the hash type is "moneyman", and a
non-Pending status. -/
lemma sheetsDecide_kept (m : Bool) (ex : List String) (tx : TransactionRow)
    (h : (sheetsDecide m ex tx).1 = true) :
    ex.contains tx.hash = false ∧ (m = true → ex.contains tx.uniqueId = false) ∧
      tx.tx.status ≠ TxStatus.pending := by
  unfold sheetsDecide at h
  by_cases h1 : (m && ex.contains tx.uniqueId) = true
  · rw [if_pos h1] at h
    cases h
  · rw [if_neg h1] at h
    by_cases h2 : ex.contains tx.hash = true
    · rw [if_pos h2] at h
      cases h
    · rw [if_neg h2] at h
      refine ⟨by simpa using h2, ?_, by simpa using h⟩
      intro hm
      subst hm
      simpa using h1

/-- Each transaction occurrence contributes at most one to `stats.existing`. -/
lemma sheetsDecide_existing_le_one (m : Bool) (ex : List String) (tx : TransactionRow) :
    (sheetsDecide m ex tx).2 ≤ 1 := by
  unfold sheetsDecide
  by_cases h1 : (m && ex.contains tx.uniqueId) = true
  · rw [if_pos h1]
  · rw [if_neg h1]
    by_cases h2 : ex.contains tx.hash = true
    · rw [if_pos h2]
      by_cases h3 : ex.contains tx.uniqueId = true
      · rw [if_pos h3]
        exact Nat.zero_le 1
      · rw [if_neg h3]
    · rw [if_neg h2]
      exact Nat.zero_le 1

/-- The imperative filter loop computes the declarative filter plus the sum of
the per-transaction `existing` contributions. -/
lemma sheetsFilterLoop_characterized (m : Bool) (ex : List String)
    (txns : List TransactionRow) :
    (sheetsFilterLoop m ex txns).1 = txns.filter (fun tx => (sheetsDecide m ex tx).1) ∧
      (sheetsFilterLoop m ex txns).2 = (txns.map fun tx => (sheetsDecide m ex tx).2).sum := by
  induction txns with
  | nil => exact ⟨rfl, rfl⟩
  | cons tx rest ih =>
      obtain ⟨ih1, ih2⟩ := ih
      by_cases hd : (sheetsDecide m ex tx).1 = true <;>
        simp [sheetsFilterLoop, List.filter_cons, hd, ih1, ih2]

/-- Claim C10 counterexample: with a hash type other than "moneyman", a
transaction whose `uniqueId` is already in the sheet's hash set but whose legacy
`hash` is not gets added anyway — so "every row actually added had neither key
present in the sheet" is false as stated. -/
theorem c10_counterexample :
    (GoogleSheetsStorage.saveTransactionsCore false ["u1"] [exampleRowU1]).newTxns =
        [exampleRowU1] ∧
      (["u1"] : List String).contains exampleRowU1.uniqueId = true ∧
      (["u1"] : List String).contains exampleRowU1.hash = false := by
  decide

/-- Claim C10 as amended: the rows added are exactly the incoming transactions
that pass the filter (in order); every added row has its legacy `hash` absent
from the sheet's hash set, additionally its `uniqueId` absent when the hash type
is "moneyman", and a non-Pending status (so a Pending transaction whose keys are
absent is never added); `stats.existing` is the sum of per-occurrence
contributions, each of which is at most one; and `stats.added` is the number of
rows added.  Under a non-"moneyman" hash type a row whose `uniqueId` is present
but whose `hash` is absent may still be added. -/
theorem c10_amended_sheet_dedup (m : Bool) (ex : List String)
    (txns : List TransactionRow) :
    (GoogleSheetsStorage.saveTransactionsCore m ex txns).newTxns =
        txns.filter (fun tx => (sheetsDecide m ex tx).1) ∧
      (∀ tx ∈ (GoogleSheetsStorage.saveTransactionsCore m ex txns).newTxns,
        ex.contains tx.hash = false ∧ (m = true → ex.contains tx.uniqueId = false) ∧
          tx.tx.status ≠ TxStatus.pending) ∧
      (GoogleSheetsStorage.saveTransactionsCore m ex txns).existing =
        (txns.map fun tx => (sheetsDecide m ex tx).2).sum ∧
      (∀ tx, (sheetsDecide m ex tx).2 ≤ 1) ∧
      (GoogleSheetsStorage.saveTransactionsCore m ex txns).added =
        (GoogleSheetsStorage.saveTransactionsCore m ex txns).newTxns.length := by
  obtain ⟨h1, h2⟩ := sheetsFilterLoop_characterized m ex txns
  refine ⟨h1, ?_, h2, fun tx => sheetsDecide_existing_le_one m ex tx, rfl⟩
  intro tx htx
  rw [show (GoogleSheetsStorage.saveTransactionsCore m ex txns).newTxns =
    (sheetsFilterLoop m ex txns).1 from rfl, h1] at htx
  exact sheetsDecide_kept m ex tx (List.mem_filter.mp htx).2

end Moneyman
